import Mathlib

/-!
Verification of the `CustomMarketMaker` strategy (`src/custom_mm_strategy.py`).

The Python `Decimal` values are embedded as `ℚ`; `Decimal.quantize` with
exponent `0.0001` (resp. `0.01`) under the default `ROUND_HALF_EVEN`
context is embedded as `quantize4` (resp. `quantize2`) below.  Timestamps
are `ℚ`.  The floating-point square root used by `pandas`' sample standard
deviation is abstracted as an explicit function parameter `hostSqrt`;
every theorem about code paths touching it holds for an arbitrary such
function.  Connector (exchange) calls may raise: they are modelled as
`Except String` values carried by a `Connector` record, one value per
call site for the duration of a tick.
-/

namespace CustomMM

/-! ## Class-level configuration constants (lines 21-35 of the source) -/

def order_amount : ℚ := 1/100
def base_spread : ℚ := 5/10000
def min_spread : ℚ := 1/10000
def max_spread : ℚ := 1/100
def order_refresh_time : ℚ := 150
def bb_length : ℕ := 20
def bb_std : ℚ := 2
def fast_ma : ℕ := 10
def slow_ma : ℕ := 50
def target_base_pct : ℚ := 1/2
def max_skew : ℚ := 1/2

/-! ## Decimal quantization (ROUND_HALF_EVEN, the `decimal` default) -/

/-- Round a rational to the nearest integer, ties to the even integer:
the rounding mode of Python `Decimal.quantize` under the default context. -/
def rhe (x : ℚ) : ℤ :=
  if x - (⌊x⌋ : ℚ) < 1/2 then ⌊x⌋
  else if 1/2 < x - (⌊x⌋ : ℚ) then ⌊x⌋ + 1
  else if ⌊x⌋ % 2 = 0 then ⌊x⌋ else ⌊x⌋ + 1

/-- `Decimal.quantize(Decimal("0.0001"))`. -/
def quantize4 (x : ℚ) : ℚ := (rhe (x * 10000) : ℚ) / 10000

/-- `Decimal.quantize(Decimal("0.01"))`, used for order prices. -/
def quantize2 (x : ℚ) : ℚ := (rhe (x * 100) : ℚ) / 100

/-- A rational that is exactly representable with 4 decimal places. -/
def isRounded4 (x : ℚ) : Prop := ∃ z : ℤ, x = (z : ℚ) / 10000

/-! ## Spread calculators (`_calc_bid_spread`, `_calc_ask_spread`) -/

/-- `_calc_bid_spread(volatility, trend, inventory_skew)` (lines 180-197). -/
def calc_bid_spread (volatility : ℚ) (trend : ℤ) (inventory_skew : ℚ) : ℚ :=
  let spread0 := base_spread
  let spread1 := spread0 * (1 + volatility)
  let spread2 :=
    if 0 < trend then spread1 * (8/10)
    else if trend < 0 then spread1 * (12/10)
    else spread1
  let spread3 := spread2 * (1 + inventory_skew)
  let spread4 := max spread3 min_spread
  let spread5 := min spread4 max_spread
  quantize4 spread5

/-- `_calc_ask_spread(volatility, trend, inventory_skew)` (lines 199-216). -/
def calc_ask_spread (volatility : ℚ) (trend : ℤ) (inventory_skew : ℚ) : ℚ :=
  let spread0 := base_spread
  let spread1 := spread0 * (1 + volatility)
  let spread2 :=
    if 0 < trend then spread1 * (12/10)
    else if trend < 0 then spread1 * (8/10)
    else spread1
  let spread3 := spread2 * (1 - inventory_skew)
  let spread4 := max spread3 min_spread
  let spread5 := min spread4 max_spread
  quantize4 spread5

/-! ## Inventory skew (`_calc_inventory_skew`, lines 158-178)

The connector queries (`get_balance` twice, `get_mid_price`) are lifted to
parameters here; the connector-threaded version used by `on_tick` is
`calc_inventory_skew_conn` below. -/

/-- The arithmetic core of `_calc_inventory_skew` given the values returned
by the connector queries. -/
def calc_inventory_skew (base_bal quote_bal mid_price : ℚ) : ℚ :=
  let total_value := base_bal * mid_price + quote_bal
  if total_value = 0 then 0
  else
    let current_ratio := base_bal * mid_price / total_value
    let raw_skew := (current_ratio - target_base_pct) / max_skew
    let capped_skew := max (min raw_skew 1) (-1)
    quantize4 capped_skew

/-! ## Price list helpers -/

/-- Python slice `xs[-n:]` for the windows used by the indicators
(they are only taken with `n ≤ length`). -/
def lastN (n : ℕ) (l : List ℚ) : List ℚ := l.drop (l.length - n)

/-- `np.mean` / `pd.Series.mean` over the embedded window. -/
def mean (l : List ℚ) : ℚ := l.sum / l.length

/-! ## Volatility (`_calc_volatility`, lines 118-138)

`pandas` computes the sample standard deviation (`ddof=1`) in binary
floating point; its square root is abstracted as the `hostSqrt`
parameter, so every theorem below holds for an arbitrary square-root
implementation. -/

/-- `_calc_volatility` with the host's floating-point square root
abstracted as `hostSqrt`. -/
def calc_volatility (hostSqrt : ℚ → ℚ) (priceData : List ℚ) : ℚ :=
  if priceData.length < bb_length then 5/1000
  else
    let prices := lastN bb_length priceData
    let m := mean prices
    let stdev := hostSqrt ((prices.map (fun p => (p - m) ^ 2)).sum / (prices.length - 1))
    let upper := m + stdev * bb_std
    let lower := m - stdev * bb_std
    let bandwidth := (upper - lower) / m
    quantize4 bandwidth

/-! ## Trend (`_calc_trend`, lines 140-156): `1` = uptrend, `-1` = downtrend,
`0` = sideways/neutral. -/

/-- `_calc_trend` over the embedded price window. -/
def calc_trend (priceData : List ℚ) : ℤ :=
  if priceData.length < slow_ma then 0
  else
    let fast_ma_val := mean (lastN fast_ma priceData)
    let slow_ma_val := mean (lastN slow_ma priceData)
    if slow_ma_val * (1002/1000) < fast_ma_val then 1
    else if fast_ma_val < slow_ma_val * (998/1000) then -1
    else 0

/-! ## Connector and strategy state

Each connector call made during one tick is modelled as an
`Except String` value recorded in a `Connector`: `.ok` is a normal return
and `.error` a raised exception.  `midPrice` returns `Option ℚ` because
`get_mid_price` can return `None`; the Python guard `if not mid_price`
also treats the Decimal `0` as falsy, which the embedding reproduces. -/

structure Connector where
  ready : Except String Bool
  midPrice : Except String (Option ℚ)
  balanceBase : Except String ℚ
  balanceQuote : Except String ℚ
  availBase : Except String ℚ
  availQuote : Except String ℚ
  cancelAll : Except String Unit
  buy : Except String ℕ
  sell : Except String ℕ

inductive Side where
  | buy
  | sell
deriving DecidableEq

/-- One value of the `active_orders` dict (lines 266-278). -/
structure OrderRecord where
  side : Side
  price : ℚ
  amount : ℚ
  time : ℚ
deriving DecidableEq

/-- `active_orders`: a Python dict keyed by order id, embedded as an
insertion-ordered association list. -/
abbrev Orders := List (ℕ × OrderRecord)

/-- Python dict assignment `d[k] = v`: update in place if the key exists
(keeping its position), else append. -/
def dictInsert (d : Orders) (k : ℕ) (v : OrderRecord) : Orders :=
  if d.any (fun p => p.1 = k) then
    d.map (fun p => if p.1 = k then (k, v) else p)
  else d ++ [(k, v)]

/-- The per-instance mutable state of the strategy object. -/
structure StratState where
  priceData : List ℚ
  lastRefresh : ℚ
  activeOrders : Orders
  tradeCount : ℕ

/-- External side effects performed during a tick: spawning the
asynchronous `_refresh_orders` task (`asyncio.create_task`, line 110), and
the connector calls made by that task. -/
inductive MMAction where
  | spawnRefresh (now mid bid_spread ask_spread : ℚ)
  | cancelAttempt
  | placeBuy (price : ℚ)
  | placeSell (price : ℚ)
deriving DecidableEq

/-! ## `_check_balance` (lines 218-235) and `_calc_inventory_skew`
threaded through the connector -/

/-- `_check_balance`, including the exception raised if `get_mid_price`
returns `None` (the quote-needed multiplication would fail). -/
def check_balance_conn (conn : Connector) : Except String Bool :=
  match conn.availBase with
  | .error e => .error e
  | .ok base_avail =>
    match conn.availQuote with
    | .error e => .error e
    | .ok quote_avail =>
      match conn.midPrice with
      | .error e => .error e
      | .ok mid_price =>
        if base_avail < order_amount then .ok false
        else
          match mid_price with
          | none => .error "unsupported operand"
          | some m =>
            if quote_avail < order_amount * m then .ok false
            else .ok true

/-- `_calc_inventory_skew` with its three connector queries performed,
propagating any exception they raise. -/
def calc_inventory_skew_conn (conn : Connector) : Except String ℚ :=
  match conn.balanceBase with
  | .error e => .error e
  | .ok base_bal =>
    match conn.balanceQuote with
    | .error e => .error e
    | .ok quote_bal =>
      match conn.midPrice with
      | .error e => .error e
      | .ok none => .error "unsupported operand"
      | .ok (some m) => .ok (calc_inventory_skew base_bal quote_bal m)

/-! ## `_refresh_orders` (lines 237-283)

The task body: best-effort cancellation (its own try/except, lines
245-249), then the two placements; the outer try/except (lines 239,
282-283) swallows any placement exception, so on a placement failure the
function returns with whatever `active_orders` held at that point and no
new records. -/

/-- The `active_orders` value after the inner cancellation try/except:
cleared only if `cancel_all` returned normally. -/
def ordersAfterCancel (conn : Connector) (orders0 : Orders) : Orders :=
  match conn.cancelAll with
  | .ok _ => []
  | .error _ => orders0

/-- `_refresh_orders`: returns the final `active_orders` and the external
effects performed (cancel attempt, successful placements). -/
def refresh_orders (conn : Connector) (orders0 : Orders) (now : ℚ)
    (mid_price bid_spread ask_spread : ℚ) : Orders × List MMAction :=
  let bid_price := quantize2 (mid_price * (1 - bid_spread))
  let ask_price := quantize2 (mid_price * (1 + ask_spread))
  let orders1 := ordersAfterCancel conn orders0
  match conn.buy with
  | .error _ => (orders1, [.cancelAttempt])
  | .ok bid_id =>
    match conn.sell with
    | .error _ => (orders1, [.cancelAttempt, .placeBuy bid_price])
    | .ok ask_id =>
      (dictInsert (dictInsert orders1 bid_id
          ⟨Side.buy, bid_price, order_amount, now⟩) ask_id
          ⟨Side.sell, ask_price, order_amount, now⟩,
       [.cancelAttempt, .placeBuy bid_price, .placeSell ask_price])

/-! ## `on_tick` (lines 60-116) -/

/-- Observable outcome of one `on_tick` call: the mutated strategy state,
the external effects, and the exception escaping to the scheduler, if
any. -/
structure TickResult where
  state : StratState
  actions : List MMAction
  raised : Option String

/-- The body of `on_tick` (the code inside the `try`, lines 62-112):
exceptions raised by connector calls propagate into `raised`, with the
state mutations performed up to that point preserved. -/
def on_tick_body (hostSqrt : ℚ → ℚ) (conn : Connector) (s : StratState)
    (now : ℚ) : TickResult :=
  if now - s.lastRefresh < order_refresh_time then ⟨s, [], none⟩
  else
    let s1 : StratState := { s with lastRefresh := now }
    match conn.ready with
    | .error e => ⟨s1, [], some e⟩
    | .ok rdy =>
      if !rdy then ⟨s1, [], none⟩
      else
        match conn.midPrice with
        | .error e => ⟨s1, [], some e⟩
        | .ok none => ⟨s1, [], none⟩
        | .ok (some mid) =>
          if mid = 0 then ⟨s1, [], none⟩
          else
            let pd0 := s1.priceData ++ [mid]
            let pd := if 100 < pd0.length then pd0.drop 1 else pd0
            let s2 : StratState := { s1 with priceData := pd }
            let vol := calc_volatility hostSqrt pd
            let trend := calc_trend pd
            match calc_inventory_skew_conn conn with
            | .error e => ⟨s2, [], some e⟩
            | .ok skew =>
              let bid_spread := calc_bid_spread vol trend skew
              let ask_spread := calc_ask_spread vol trend skew
              match check_balance_conn conn with
              | .error e => ⟨s2, [], some e⟩
              | .ok true => ⟨s2, [.spawnRefresh now mid bid_spread ask_spread], none⟩
              | .ok false => ⟨s2, [], none⟩

/-- `on_tick`: the body wrapped in the outer `try/except Exception`
(lines 62, 114-116), which logs the exception and returns normally. -/
def on_tick (hostSqrt : ℚ → ℚ) (conn : Connector) (s : StratState)
    (now : ℚ) : TickResult :=
  let r := on_tick_body hostSqrt conn s now
  { r with raised := none }

/-! ## The cooperative event loop

`asyncio.create_task` is fire-and-forget: `on_tick` returns immediately
after spawning `_refresh_orders`, which suspends at `await cancel_all`
and finishes later.  A refresh task is *outstanding* from its creation
until it runs to completion.  The loop below interleaves scheduler ticks
with task completions; each event carries the connector responses seen by
the code running in that event. -/

/-- A spawned, not yet completed `_refresh_orders` task. -/
structure RefreshTask where
  now : ℚ
  mid : ℚ
  bid_spread : ℚ
  ask_spread : ℚ

structure LoopState where
  strat : StratState
  pending : List RefreshTask

inductive LoopEvent where
  | tick (conn : Connector) (now : ℚ)
  | finishTask (i : ℕ) (conn : Connector)

/-- The refresh tasks spawned by a list of tick effects. -/
def spawnsOf (acts : List MMAction) : List RefreshTask :=
  acts.filterMap (fun a =>
    match a with
    | .spawnRefresh n m b k => some ⟨n, m, b, k⟩
    | _ => none)

/-- One event of the single-threaded cooperative loop: a scheduler tick
(running `on_tick` to completion, collecting any spawned refresh task),
or the completion of outstanding refresh task `i`. -/
def loopStep (hostSqrt : ℚ → ℚ) (c : LoopState) (e : LoopEvent) : LoopState :=
  match e with
  | .tick conn now =>
    let r := on_tick hostSqrt conn c.strat now
    { strat := r.state, pending := c.pending ++ spawnsOf r.actions }
  | .finishTask i conn =>
    match c.pending.get? i with
    | none => c
    | some t =>
      let r := refresh_orders conn c.strat.activeOrders t.now t.mid
        t.bid_spread t.ask_spread
      { strat := { c.strat with activeOrders := r.1 },
        pending := c.pending.eraseIdx i }

def loopRun (hostSqrt : ℚ → ℚ) (c0 : LoopState) (es : List LoopEvent) :
    LoopState :=
  es.foldl (loopStep hostSqrt) c0

/-! ## Concrete instances used by counterexamples and witnesses -/

/-- A strictly increasing 50-sample window whose gentle slope keeps the
fast mean within the 0.2 percent margin of the slow mean. -/
def trendCexList : List ℚ :=
  [100000, 100001, 100002, 100003, 100004, 100005, 100006, 100007, 100008, 100009, 100010, 100011, 100012, 100013, 100014, 100015, 100016, 100017, 100018, 100019, 100020, 100021, 100022, 100023, 100024, 100025, 100026, 100027, 100028, 100029, 100030, 100031, 100032, 100033, 100034, 100035, 100036, 100037, 100038, 100039, 100040, 100041, 100042, 100043, 100044, 100045, 100046, 100047, 100048, 100049]

/-- A pre-existing order record used by the refresh counterexamples. -/
def staleRec : OrderRecord := ⟨Side.buy, 79000, 1/100, 0⟩

/-- Connector behaviour: `cancel_all` raises, both placements succeed. -/
def cancelFailConn : Connector :=
  { ready := .ok true, midPrice := .ok (some 80000), balanceBase := .ok 1,
    balanceQuote := .ok 1, availBase := .ok 1, availQuote := .ok 1,
    cancelAll := .error "cancel failed", buy := .ok 1, sell := .ok 2 }

/-- Connector behaviour: cancellation succeeds, the bid placement
succeeds, the ask placement raises. -/
def sellFailConn : Connector :=
  { ready := .ok true, midPrice := .ok (some 80000), balanceBase := .ok 1,
    balanceQuote := .ok 1, availBase := .ok 1, availQuote := .ok 1,
    cancelAll := .ok (), buy := .ok 7, sell := .error "sell failed" }

/-- Connector behaviour with everything healthy except that the available
base balance `0.005` is below the order amount `0.01`. -/
def lowBalConn : Connector :=
  { ready := .ok true, midPrice := .ok (some 80000), balanceBase := .ok 1,
    balanceQuote := .ok 1, availBase := .ok (1/200), availQuote := .ok 10000,
    cancelAll := .ok (), buy := .ok 1, sell := .ok 2 }

def zeroSqrt : ℚ → ℚ := fun _ => 0

/-- Connector behaviour in which everything succeeds. -/
def goodConn : Connector :=
  { ready := .ok true, midPrice := .ok (some 100), balanceBase := .ok 1,
    balanceQuote := .ok 100, availBase := .ok 10, availQuote := .ok 10,
    cancelAll := .ok (), buy := .ok 1, sell := .ok 2 }

def loop0 : LoopState := ⟨⟨[], 0, [], 0⟩, []⟩

/-! # Claims -/

/-! ## Rounding lemmas -/

lemma floor_le_rhe (x : ℚ) : ⌊x⌋ ≤ rhe x := by
  unfold rhe
  split
  · exact le_refl _
  · split
    · exact Int.le_add_one (le_refl _)
    · split
      · exact le_refl _
      · exact Int.le_add_one (le_refl _)

lemma rhe_le_of_le {x : ℚ} {z : ℤ} (h : x ≤ (z : ℚ)) : rhe x ≤ z := by
  have hf : ⌊x⌋ ≤ z := by
    have h2 := Int.floor_le_floor h
    rwa [Int.floor_intCast] at h2
  have hfx : (⌊x⌋ : ℚ) ≤ x := Int.floor_le x
  unfold rhe
  split
  · exact hf
  · rename_i h1
    push_neg at h1
    have hlt : (⌊x⌋ : ℚ) < x := by linarith
    have hzlt : ⌊x⌋ < z := by
      by_contra hc
      push_neg at hc
      have hcq : (z : ℚ) ≤ (⌊x⌋ : ℚ) := by exact_mod_cast hc
      linarith
    split
    · omega
    · split
      · exact hf
      · omega

lemma le_rhe_of_le {x : ℚ} {z : ℤ} (h : (z : ℚ) ≤ x) : z ≤ rhe x :=
  le_trans (Int.le_floor.mpr h) (floor_le_rhe x)

lemma quantize4_le_of_le {x : ℚ} {z : ℤ} (h : x ≤ (z : ℚ) / 10000) :
    quantize4 x ≤ (z : ℚ) / 10000 := by
  unfold quantize4
  have hx : x * 10000 ≤ (z : ℚ) := by linarith
  have := rhe_le_of_le hx
  have hc : ((rhe (x * 10000) : ℤ) : ℚ) ≤ (z : ℚ) := by exact_mod_cast this
  linarith

lemma le_quantize4_of_le {x : ℚ} {z : ℤ} (h : (z : ℚ) / 10000 ≤ x) :
    (z : ℚ) / 10000 ≤ quantize4 x := by
  unfold quantize4
  have hx : (z : ℚ) ≤ x * 10000 := by linarith
  have := le_rhe_of_le hx
  have hc : (z : ℚ) ≤ ((rhe (x * 10000) : ℤ) : ℚ) := by exact_mod_cast this
  linarith

lemma quantize4_isRounded4 (x : ℚ) : isRounded4 (quantize4 x) :=
  ⟨rhe (x * 10000), rfl⟩

lemma clamp_quantize4_bounds (x : ℚ) :
    min_spread ≤ quantize4 (min (max x min_spread) max_spread) ∧
      quantize4 (min (max x min_spread) max_spread) ≤ max_spread := by
  have hmin : min_spread = ((1 : ℤ) : ℚ) / 10000 := by norm_num [min_spread]
  have hmax : max_spread = ((100 : ℤ) : ℚ) / 10000 := by norm_num [max_spread]
  constructor
  · rw [hmin]
    apply le_quantize4_of_le
    rw [← hmin]
    exact le_min (le_max_right _ _) (by rw [hmin, hmax]; norm_num)
  · rw [hmax]
    apply quantize4_le_of_le
    rw [← hmax]
    exact min_le_right _ _


example : calc_bid_spread 0 0 0 = 5/10000 := by
  norm_num [calc_bid_spread, quantize4, rhe, base_spread, min_spread, max_spread,
    max_def, min_def]
example : calc_ask_spread (1/2) 1 (1/2) = 4/10000 := by
  norm_num [calc_ask_spread, quantize4, rhe, base_spread, min_spread, max_spread,
    max_def, min_def]


/-- C1: for every volatility value, trend signal and inventory-skew value
(volatility non-negative, skew in `[-1, 1]`), `_calc_bid_spread` and
`_calc_ask_spread` return a value within `[min_spread, max_spread]` that
is rounded to 4 decimal places, however extreme the inputs. -/
theorem spread_outputs_bounded_and_rounded (v : ℚ) (t : ℤ) (s : ℚ)
    (hv : 0 ≤ v) (hs1 : -1 ≤ s) (hs2 : s ≤ 1) :
    (min_spread ≤ calc_bid_spread v t s ∧ calc_bid_spread v t s ≤ max_spread ∧
      isRounded4 (calc_bid_spread v t s)) ∧
    (min_spread ≤ calc_ask_spread v t s ∧ calc_ask_spread v t s ≤ max_spread ∧
      isRounded4 (calc_ask_spread v t s)) := by
  refine ⟨⟨?_, ?_, ?_⟩, ?_, ?_, ?_⟩
  · exact (clamp_quantize4_bounds _).1
  · exact (clamp_quantize4_bounds _).2
  · exact quantize4_isRounded4 _
  · exact (clamp_quantize4_bounds _).1
  · exact (clamp_quantize4_bounds _).2
  · exact quantize4_isRounded4 _

theorem spread_outputs_bounded_and_rounded_witness :
    ((0:ℚ) ≤ 3 ∧ -1 ≤ (1/4 : ℚ) ∧ (1/4 : ℚ) ≤ 1) ∧
    (min_spread ≤ calc_bid_spread 3 1 (1/4) ∧
      calc_bid_spread 3 1 (1/4) ≤ max_spread ∧
      isRounded4 (calc_bid_spread 3 1 (1/4))) ∧
    (min_spread ≤ calc_ask_spread 3 1 (1/4) ∧
      calc_ask_spread 3 1 (1/4) ≤ max_spread ∧
      isRounded4 (calc_ask_spread 3 1 (1/4))) :=
  ⟨⟨by norm_num, by norm_num, by norm_num⟩,
    spread_outputs_bounded_and_rounded 3 1 (1/4)
      (by norm_num) (by norm_num) (by norm_num)⟩

/-- C10: `_calc_ask_spread(v, t, s)` equals `_calc_bid_spread(v, -t, -s)`:
the ask side is the bid side with the trend and skew signs flipped. -/
theorem ask_spread_mirrors_bid_spread (v : ℚ) (t : ℤ) (s : ℚ) :
    calc_ask_spread v t s = calc_bid_spread v (-t) (-s) := by
  simp only [calc_ask_spread, calc_bid_spread]
  rcases lt_trichotomy t 0 with h | h | h
  · rw [if_neg (by omega : ¬ (0:ℤ) < t), if_pos h,
      if_pos (by omega : (0:ℤ) < -t)]
    congr 1
    ring
  · subst h
    simp only [neg_zero, lt_self_iff_false, if_false]
    congr 1
    ring
  · rw [if_pos h, if_neg (by omega : ¬ (0:ℤ) < -t),
      if_pos (by omega : -t < 0)]
    congr 1
    ring

/-- C4: for non-negative balances and positive mid price,
`_calc_inventory_skew` returns a 4-place-rounded value in `[-1, 1]` equal
to `((base*mid)/(base*mid + quote) - target_pct)/max_skew` clamped to
`[-1, 1]`, and returns exactly `0` when the total portfolio value is
zero. -/
theorem inventory_skew_bounded_rounded_formula (b q m : ℚ)
    (hb : 0 ≤ b) (hq : 0 ≤ q) (hm : 0 < m) :
    (-1 ≤ calc_inventory_skew b q m ∧ calc_inventory_skew b q m ≤ 1 ∧
      isRounded4 (calc_inventory_skew b q m)) ∧
    (b * m + q = 0 → calc_inventory_skew b q m = 0) ∧
    (b * m + q ≠ 0 → calc_inventory_skew b q m =
      quantize4 (max (min ((b * m / (b * m + q) - target_base_pct) / max_skew) 1)
        (-1))) := by
  have hneg1 : (-1 : ℚ) = ((-10000 : ℤ) : ℚ) / 10000 := by norm_num
  have hpos1 : (1 : ℚ) = ((10000 : ℤ) : ℚ) / 10000 := by norm_num
  by_cases h : b * m + q = 0
  · refine ⟨?_, fun _ => ?_, fun hc => absurd h hc⟩
    · simp only [calc_inventory_skew, if_pos h]
      exact ⟨by norm_num, by norm_num, 0, by norm_num⟩
    · simp only [calc_inventory_skew, if_pos h]
  · have hval : calc_inventory_skew b q m =
        quantize4 (max (min ((b * m / (b * m + q) - target_base_pct) / max_skew) 1)
          (-1)) := by
      simp only [calc_inventory_skew, if_neg h]
    refine ⟨⟨?_, ?_, ?_⟩, fun hc => absurd hc h, fun _ => hval⟩
    · rw [hval, hneg1]
      exact le_quantize4_of_le (by rw [← hneg1]; exact le_max_right _ _)
    · rw [hval, hpos1]
      refine quantize4_le_of_le ?_
      rw [← hpos1]
      exact max_le (min_le_right _ _) (by norm_num)
    · rw [hval]
      exact quantize4_isRounded4 _

theorem inventory_skew_bounded_rounded_formula_witness :
    ((0:ℚ) ≤ 0 ∧ (0:ℚ) ≤ 10000 ∧ (0:ℚ) < 80000) ∧
    (-1 ≤ calc_inventory_skew 0 10000 80000 ∧
      calc_inventory_skew 0 10000 80000 ≤ 1 ∧
      isRounded4 (calc_inventory_skew 0 10000 80000)) ∧
    ((0:ℚ) * 80000 + 10000 = 0 → calc_inventory_skew 0 10000 80000 = 0) ∧
    ((0:ℚ) * 80000 + 10000 ≠ 0 → calc_inventory_skew 0 10000 80000 =
      quantize4 (max (min ((0 * 80000 / ((0:ℚ) * 80000 + 10000) - target_base_pct)
        / max_skew) 1) (-1))) :=
  ⟨⟨by norm_num, by norm_num, by norm_num⟩,
    inventory_skew_bounded_rounded_formula 0 10000 80000
      (by norm_num) (by norm_num) (by norm_num)⟩

/-- C7: for every price window with fewer than `bb_length` samples,
`_calc_volatility` returns exactly the fallback constant `0.005` (for any
host square-root implementation). -/
theorem volatility_short_window_fallback (hostSqrt : ℚ → ℚ) (l : List ℚ)
    (h : l.length < bb_length) : calc_volatility hostSqrt l = 5/1000 := by
  simp only [calc_volatility, if_pos h]

theorem volatility_short_window_fallback_witness :
    ([(80000 : ℚ), 80001, 80002].length < bb_length) ∧
    calc_volatility (fun _ => 0) [(80000 : ℚ), 80001, 80002] = 5/1000 :=
  ⟨by decide, volatility_short_window_fallback (fun _ => 0) _ (by decide)⟩

/-! ## Mean comparison lemmas for sorted windows (for the trend claim) -/

lemma sum_le_length_mul (l : List ℚ) (c : ℚ) (h : ∀ x ∈ l, x ≤ c) :
    l.sum ≤ (l.length : ℚ) * c := by
  induction l with
  | nil => simp
  | cons a t ih =>
    simp only [List.sum_cons, List.length_cons]
    have ha := h a (List.mem_cons_self a t)
    have ht := ih (fun x hx => h x (List.mem_cons_of_mem a hx))
    push_cast
    linarith

lemma length_mul_le_sum (l : List ℚ) (c : ℚ) (h : ∀ x ∈ l, c ≤ x) :
    (l.length : ℚ) * c ≤ l.sum := by
  induction l with
  | nil => simp
  | cons a t ih =>
    simp only [List.sum_cons, List.length_cons]
    have ha := h a (List.mem_cons_self a t)
    have ht := ih (fun x hx => h x (List.mem_cons_of_mem a hx))
    push_cast
    linarith

lemma mean_append_le (a b : List ℚ) (c : ℚ) (hb : b ≠ [])
    (ha : ∀ x ∈ a, x ≤ c) (hbc : ∀ y ∈ b, c ≤ y) :
    mean (a ++ b) ≤ mean b := by
  have hbl : 0 < (b.length : ℚ) := by exact_mod_cast List.length_pos.mpr hb
  have hal : 0 ≤ (a.length : ℚ) := by positivity
  have h1 := sum_le_length_mul a c ha
  have h2 := length_mul_le_sum b c hbc
  unfold mean
  rw [List.sum_append, List.length_append]
  rw [div_le_div_iff (by push_cast; linarith) hbl]
  push_cast
  nlinarith [h1, h2, hbl, hal]

lemma le_mean_append (a b : List ℚ) (c : ℚ) (hb : b ≠ [])
    (ha : ∀ x ∈ a, c ≤ x) (hbc : ∀ y ∈ b, y ≤ c) :
    mean b ≤ mean (a ++ b) := by
  have hbl : 0 < (b.length : ℚ) := by exact_mod_cast List.length_pos.mpr hb
  have hal : 0 ≤ (a.length : ℚ) := by positivity
  have h1 := length_mul_le_sum a c ha
  have h2 := sum_le_length_mul b c hbc
  unfold mean
  rw [List.sum_append, List.length_append]
  rw [div_le_div_iff hbl (by push_cast; linarith)]
  push_cast
  nlinarith [h1, h2, hbl, hal]

lemma lastN_length_of_le {n : ℕ} {l : List ℚ} (h : n ≤ l.length) :
    (lastN n l).length = n := by
  simp only [lastN, List.length_drop]
  omega

lemma lastN_drop {m n : ℕ} {l : List ℚ} (h1 : m ≤ n) (h2 : n ≤ l.length) :
    lastN m l = (lastN n l).drop (n - m) := by
  unfold lastN
  rw [List.drop_drop]
  congr 1
  omega

lemma mean_pos {l : List ℚ} (hne : l ≠ []) (h : ∀ x ∈ l, 0 < x) :
    0 < mean l := by
  unfold mean
  apply div_pos (List.sum_pos l h hne)
  exact_mod_cast List.length_pos.mpr hne

lemma mean_lastN_le_of_sorted {l : List ℚ} {m n : ℕ} (hm : 0 < m)
    (hmn : m ≤ n) (hn : n ≤ l.length) (hs : l.Pairwise (· ≤ ·)) :
    mean (lastN n l) ≤ mean (lastN m l) := by
  have hLlen : (lastN n l).length = n := lastN_length_of_le hn
  have hLs : (lastN n l).Pairwise (· ≤ ·) := hs.drop
  have hdrop : lastN m l = (lastN n l).drop (n - m) := lastN_drop hmn hn
  have hdlen : ((lastN n l).drop (n - m)).length = m := by
    rw [List.length_drop, hLlen]
    omega
  have hdne : (lastN n l).drop (n - m) ≠ [] := by
    intro h0
    rw [h0] at hdlen
    simp at hdlen
    omega
  obtain ⟨x, t, hxt⟩ := List.exists_cons_of_ne_nil hdne
  have hsplit := List.take_append_drop (n - m) (lastN n l)
  rw [← hsplit] at hLs
  obtain ⟨hp1, hp2, hcross⟩ := List.pairwise_append.mp hLs
  have ha : ∀ y ∈ (lastN n l).take (n - m), y ≤ x := fun y hy =>
    hcross y hy x (by rw [hxt]; exact List.mem_cons_self x t)
  have hbc : ∀ y ∈ (lastN n l).drop (n - m), x ≤ y := by
    intro y hy
    rw [hxt] at hy hp2
    rcases List.mem_cons.mp hy with h | h
    · exact h ▸ le_refl x
    · exact (List.pairwise_cons.mp hp2).1 y h
  have hfin := mean_append_le ((lastN n l).take (n - m))
    ((lastN n l).drop (n - m)) x hdne ha hbc
  rw [hsplit] at hfin
  rw [hdrop]
  exact hfin

lemma mean_lastN_ge_of_antitone {l : List ℚ} {m n : ℕ} (hm : 0 < m)
    (hmn : m ≤ n) (hn : n ≤ l.length)
    (hs : l.Pairwise (fun x y => y ≤ x)) :
    mean (lastN m l) ≤ mean (lastN n l) := by
  have hLlen : (lastN n l).length = n := lastN_length_of_le hn
  have hLs : (lastN n l).Pairwise (fun x y => y ≤ x) := hs.drop
  have hdrop : lastN m l = (lastN n l).drop (n - m) := lastN_drop hmn hn
  have hdlen : ((lastN n l).drop (n - m)).length = m := by
    rw [List.length_drop, hLlen]
    omega
  have hdne : (lastN n l).drop (n - m) ≠ [] := by
    intro h0
    rw [h0] at hdlen
    simp at hdlen
    omega
  obtain ⟨x, t, hxt⟩ := List.exists_cons_of_ne_nil hdne
  have hsplit := List.take_append_drop (n - m) (lastN n l)
  rw [← hsplit] at hLs
  obtain ⟨hp1, hp2, hcross⟩ := List.pairwise_append.mp hLs
  have ha : ∀ y ∈ (lastN n l).take (n - m), x ≤ y := fun y hy =>
    hcross y hy x (by rw [hxt]; exact List.mem_cons_self x t)
  have hbc : ∀ y ∈ (lastN n l).drop (n - m), y ≤ x := by
    intro y hy
    rw [hxt] at hy hp2
    rcases List.mem_cons.mp hy with h | h
    · exact h ▸ le_refl x
    · exact (List.pairwise_cons.mp hp2).1 y h
  have hfin := le_mean_append ((lastN n l).take (n - m))
    ((lastN n l).drop (n - m)) x hdne ha hbc
  rw [hsplit] at hfin
  rw [hdrop]
  exact hfin


/-! ## The trend claim -/


/-- C3 counterexample: `trendCexList` is strictly increasing with length
`slow_ma`, yet `_calc_trend` returns `0` (Neutral), not `1` (Up): the
fast mean exceeds the slow mean by about 0.02 percent, below the 0.2
percent margin. -/
theorem trend_increasing_window_neutral :
    trendCexList.Pairwise (· < ·) ∧ slow_ma ≤ trendCexList.length ∧
      calc_trend trendCexList = 0 := by
  refine ⟨by decide, by decide, ?_⟩
  norm_num [calc_trend, mean, lastN, trendCexList, slow_ma, fast_ma]

/-- C3 (amended): a strictly increasing window of positive prices with
length at least `slow_ma` never yields `-1` (Down) — it yields `1` (Up)
exactly when the fast mean clears the 0.2 percent margin, else `0`
(Neutral) — and symmetrically a strictly decreasing window never yields
`1`. -/
theorem trend_on_monotone_windows (l : List ℚ) (hlen : slow_ma ≤ l.length)
    (hpos : ∀ x ∈ l, 0 < x) :
    (l.Pairwise (· < ·) → calc_trend l ≠ -1) ∧
    (l.Pairwise (fun x y => y < x) → calc_trend l ≠ 1) := by
  have h50 : ¬ l.length < slow_ma := by omega
  have hfastpos : (0:ℕ) < fast_ma := by decide
  have hms : fast_ma ≤ slow_ma := by decide
  have hLne : lastN slow_ma l ≠ [] := by
    have hlen2 : (lastN slow_ma l).length = slow_ma := lastN_length_of_le hlen
    intro h0
    rw [h0] at hlen2
    simp [slow_ma] at hlen2
  have hslow : 0 < mean (lastN slow_ma l) :=
    mean_pos hLne (fun x hx => hpos x (List.drop_subset _ _ hx))
  constructor
  · intro hinc
    have hs : l.Pairwise (· ≤ ·) := hinc.imp le_of_lt
    have hkey := mean_lastN_le_of_sorted hfastpos hms hlen hs
    simp only [calc_trend, if_neg h50]
    split
    · omega
    · rw [if_neg (not_lt.mpr (by linarith))]
      omega
  · intro hdec
    have hs : l.Pairwise (fun x y => y ≤ x) := hdec.imp le_of_lt
    have hkey := mean_lastN_ge_of_antitone hfastpos hms hlen hs
    simp only [calc_trend, if_neg h50]
    rw [if_neg (not_lt.mpr (by linarith))]
    split
    · omega
    · omega

theorem trend_on_monotone_windows_witness :
    slow_ma ≤ trendCexList.length ∧ calc_trend trendCexList ≠ -1 :=
  ⟨by decide,
    (trend_on_monotone_windows trendCexList (by decide) (by decide)).1
      (by decide)⟩

/-! ## The order-refresh claims -/

lemma mem_dictInsert_of_mem {d : Orders} {k : ℕ} {r : OrderRecord}
    {k0 : ℕ} {v : OrderRecord} (h : (k, r) ∈ d) (hne : k ≠ k0) :
    (k, r) ∈ dictInsert d k0 v := by
  unfold dictInsert
  split
  · exact List.mem_map.mpr ⟨(k, r), h, by simp [hne]⟩
  · exact List.mem_append_left _ h

lemma mem_dictInsert_self (d : Orders) (k : ℕ) (v : OrderRecord) :
    (k, v) ∈ dictInsert d k v := by
  unfold dictInsert
  split
  · rename_i hany
    obtain ⟨p, hp, hpk⟩ := List.any_eq_true.mp hany
    refine List.mem_map.mpr ⟨p, hp, ?_⟩
    simp [of_decide_eq_true hpk]
  · exact List.mem_append_right _ (by simp)


/-- C2 counterexample: `cancel_all` raises and both placements succeed,
yet the pre-existing record survives — `active_orders` ends with three
records, not exactly the two new ones (`self.active_orders = {}` is
skipped when the cancel raises). -/
theorem refresh_cancel_error_not_wholesale :
    (refresh_orders cancelFailConn [(0, staleRec)] 300 80000 (5/10000)
      (5/10000)).1.length = 3 ∧
    (0, staleRec) ∈ (refresh_orders cancelFailConn [(0, staleRec)] 300 80000
      (5/10000) (5/10000)).1 := by
  norm_num [refresh_orders, cancelFailConn, ordersAfterCancel, dictInsert,
    staleRec]

/-- C2 (amended): when `cancel_all` raises but both placements succeed,
the old record set is retained and the two new orders are added to it
(records not keyed by the new order ids survive); the set is replaced
wholesale — exactly the two new orders — only when cancellation
succeeds. -/
theorem refresh_cancel_error_behaviour (conn : Connector) (orders0 : Orders)
    (now mid bs as : ℚ) (bid_id ask_id : ℕ) (hbuy : conn.buy = .ok bid_id)
    (hsell : conn.sell = .ok ask_id) (hne : bid_id ≠ ask_id) :
    ((∃ e, conn.cancelAll = .error e) →
      (∀ k r, (k, r) ∈ orders0 → k ≠ bid_id → k ≠ ask_id →
        (k, r) ∈ (refresh_orders conn orders0 now mid bs as).1) ∧
      (bid_id, ⟨Side.buy, quantize2 (mid * (1 - bs)), order_amount, now⟩) ∈
        (refresh_orders conn orders0 now mid bs as).1 ∧
      (ask_id, ⟨Side.sell, quantize2 (mid * (1 + as)), order_amount, now⟩) ∈
        (refresh_orders conn orders0 now mid bs as).1) ∧
    (conn.cancelAll = .ok () →
      (refresh_orders conn orders0 now mid bs as).1 =
        [(bid_id, ⟨Side.buy, quantize2 (mid * (1 - bs)), order_amount, now⟩),
         (ask_id, ⟨Side.sell, quantize2 (mid * (1 + as)), order_amount, now⟩)]) := by
  constructor
  · rintro ⟨e, hc⟩
    have hres : (refresh_orders conn orders0 now mid bs as).1 =
        dictInsert (dictInsert orders0 bid_id
          ⟨Side.buy, quantize2 (mid * (1 - bs)), order_amount, now⟩) ask_id
          ⟨Side.sell, quantize2 (mid * (1 + as)), order_amount, now⟩ := by
      simp only [refresh_orders, ordersAfterCancel, hc, hbuy, hsell]
    refine ⟨?_, ?_, ?_⟩
    · intro k r hk hkb hka
      rw [hres]
      exact mem_dictInsert_of_mem (mem_dictInsert_of_mem hk hkb) hka
    · rw [hres]
      exact mem_dictInsert_of_mem (mem_dictInsert_self _ _ _) hne
    · rw [hres]
      exact mem_dictInsert_self _ _ _
  · intro hc
    simp only [refresh_orders, ordersAfterCancel, hc, hbuy, hsell]
    simp [dictInsert, hne]

theorem refresh_cancel_error_behaviour_witness :
    ((3, staleRec) ∈ (refresh_orders cancelFailConn [(3, staleRec)] 300 80000
      (5/10000) (5/10000)).1) ∧
    ((1, ⟨Side.buy, quantize2 (80000 * (1 - 5/10000)), order_amount, 300⟩) ∈
      (refresh_orders cancelFailConn [(3, staleRec)] 300 80000 (5/10000)
        (5/10000)).1) ∧
    ((2, ⟨Side.sell, quantize2 (80000 * (1 + 5/10000)), order_amount, 300⟩) ∈
      (refresh_orders cancelFailConn [(3, staleRec)] 300 80000 (5/10000)
        (5/10000)).1) :=
  have h := (refresh_cancel_error_behaviour cancelFailConn [(3, staleRec)]
    300 80000 (5/10000) (5/10000) 1 2 rfl rfl (by decide)).1
    ⟨"cancel failed", rfl⟩
  ⟨h.1 3 staleRec (by simp) (by decide) (by decide), h.2.1, h.2.2⟩


/-- C5 counterexample: exactly one placement (the ask) fails; the bid was
placed on the exchange (the `placeBuy` effect happened) yet the resulting
record set is empty — the other side's placed order is NOT recorded,
because the record insertions sit after both placement calls. -/
theorem refresh_single_failure_drops_placed_order :
    (refresh_orders sellFailConn [] 300 80000 (5/10000) (5/10000)).1 = [] ∧
    MMAction.placeBuy 79960 ∈
      (refresh_orders sellFailConn [] 300 80000 (5/10000) (5/10000)).2 := by
  constructor
  · simp only [refresh_orders, sellFailConn, ordersAfterCancel]
  · norm_num [refresh_orders, sellFailConn, ordersAfterCancel, quantize2, rhe]

/-- C5 (amended): when a placement call raises, no record of either side
is added: if the bid placement fails, the ask is never attempted and the
record set is whatever cancellation left; if the ask placement fails, the
bid order was placed externally (`placeBuy` effect) but is absent from the
record set, which again is whatever cancellation left. No retry occurs
within the tick. -/
theorem refresh_placement_failure_behaviour (conn : Connector)
    (orders0 : Orders) (now mid bs as : ℚ) :
    ((∃ e, conn.buy = .error e) →
      refresh_orders conn orders0 now mid bs as =
        (ordersAfterCancel conn orders0, [MMAction.cancelAttempt])) ∧
    (∀ bid_id e, conn.buy = .ok bid_id → conn.sell = .error e →
      refresh_orders conn orders0 now mid bs as =
        (ordersAfterCancel conn orders0,
          [MMAction.cancelAttempt,
           MMAction.placeBuy (quantize2 (mid * (1 - bs)))])) := by
  constructor
  · rintro ⟨e, hb⟩
    simp only [refresh_orders, hb]
  · intro bid_id e hb hs
    simp only [refresh_orders, hb, hs]

theorem refresh_placement_failure_behaviour_witness :
    refresh_orders sellFailConn [] 300 80000 (5/10000) (5/10000) =
      (ordersAfterCancel sellFailConn [],
        [MMAction.cancelAttempt,
         MMAction.placeBuy (quantize2 (80000 * (1 - 5/10000)))]) :=
  (refresh_placement_failure_behaviour sellFailConn [] 300 80000 (5/10000)
    (5/10000)).2 7 "sell failed" rfl rfl

/-! ## The tick-level claims -/

/-- C6: whatever the connector does — including any call raising — the
exception propagating out of the tick body is caught by the outer
`try/except`, so `on_tick` never raises toward the scheduler. -/
theorem on_tick_never_raises (hostSqrt : ℚ → ℚ) (conn : Connector)
    (s : StratState) (now : ℚ) :
    (on_tick hostSqrt conn s now).raised = none := rfl

/-- Every `on_tick` either performs no external effect or spawns exactly
one refresh task, and spawning requires the refresh interval to have
elapsed and stamps `last_refresh` with the tick time. -/
lemma on_tick_body_actions_spec (hostSqrt : ℚ → ℚ) (conn : Connector)
    (s : StratState) (now : ℚ) :
    (on_tick_body hostSqrt conn s now).actions = [] ∨
    (∃ mid bs as,
      (on_tick_body hostSqrt conn s now).actions =
        [MMAction.spawnRefresh now mid bs as] ∧
      ¬ now - s.lastRefresh < order_refresh_time ∧
      (on_tick_body hostSqrt conn s now).state.lastRefresh = now) := by
  unfold on_tick_body
  repeat' split
  all_goals first
    | (left; rfl)
    | (right; exact ⟨_, _, _, rfl, by assumption, rfl⟩)

/-- C8: on any tick where the available base balance is below the order
amount or the available quote balance is below `order_amount * mid`,
`on_tick` performs no external effect at all — no refresh task is
spawned, so nothing is cancelled or placed — and the order records are
untouched. -/
theorem on_tick_insufficient_balance (hostSqrt : ℚ → ℚ) (conn : Connector)
    (s : StratState) (now : ℚ) (ab aq m : ℚ)
    (hab : conn.availBase = .ok ab) (haq : conn.availQuote = .ok aq)
    (hm : conn.midPrice = .ok (some m))
    (hlow : ab < order_amount ∨ aq < order_amount * m) :
    (on_tick hostSqrt conn s now).actions = [] ∧
    (on_tick hostSqrt conn s now).state.activeOrders = s.activeOrders := by
  have hcb : check_balance_conn conn = Except.ok false := by
    simp only [check_balance_conn, hab, haq, hm]
    rcases hlow with h | h
    · rw [if_pos h]
    · by_cases h2 : ab < order_amount
      · rw [if_pos h2]
      · rw [if_neg h2, if_pos h]
  constructor <;>
  · simp only [on_tick, on_tick_body, hcb]
    repeat' split
    all_goals rfl


theorem on_tick_insufficient_balance_witness :
    ((1/200 : ℚ) < order_amount ∨ (10000 : ℚ) < order_amount * 80000) ∧
    (on_tick (fun _ => 0) lowBalConn ⟨[], 0, [], 0⟩ 150).actions = [] ∧
    (on_tick (fun _ => 0) lowBalConn ⟨[], 0, [], 0⟩ 150).state.activeOrders =
      (⟨[], 0, [], 0⟩ : StratState).activeOrders :=
  ⟨Or.inl (by norm_num [order_amount]),
    on_tick_insufficient_balance (fun _ => 0) lowBalConn ⟨[], 0, [], 0⟩ 150
      (1/200) 10000 80000 rfl rfl rfl
      (Or.inl (by norm_num [order_amount]))⟩

/-! ## The refresh-concurrency claim -/


/-- C9 counterexample: two scheduler ticks 150 s apart, with no refresh
completion in between (the first task is still suspended at
`await cancel_all`), leave TWO refresh tasks outstanding for the pair
simultaneously: the fire-and-forget `asyncio.create_task` has no re-entry
guard, only the elapsed-time check. -/
theorem two_refreshes_outstanding :
    (loopRun zeroSqrt loop0
      [LoopEvent.tick goodConn 150,
       LoopEvent.tick goodConn 300]).pending.length = 2 := by
  norm_num [loopRun, loopStep, loop0, goodConn, zeroSqrt, on_tick,
    on_tick_body, spawnsOf, List.filterMap_cons, order_refresh_time, calc_inventory_skew_conn,
    calc_inventory_skew, check_balance_conn, order_amount, calc_volatility,
    bb_length, calc_trend, slow_ma, fast_ma, mean, lastN, bb_std,
    calc_bid_spread, calc_ask_spread, base_spread, min_spread, max_spread,
    target_base_pct, max_skew, quantize4, rhe, max_def, min_def]

/-- C9 (amended): mutual exclusion of refreshes is enforced by timing
alone, not a re-entry guard: a tick that performs any external effect (it
can only be spawning one refresh task) requires `order_refresh_time` to
have elapsed since `last_refresh` and stamps `last_refresh` with the tick
time, so refresh starts are at least `order_refresh_time` apart; but a new
refresh may start while a prior refresh's cancel/place sequence is still
outstanding. -/
theorem refresh_spawn_timing_gate (hostSqrt : ℚ → ℚ) (conn : Connector)
    (s : StratState) (now : ℚ) (a : MMAction)
    (ha : a ∈ (on_tick hostSqrt conn s now).actions) :
    order_refresh_time ≤ now - s.lastRefresh ∧
    (on_tick hostSqrt conn s now).state.lastRefresh = now := by
  have hact : (on_tick hostSqrt conn s now).actions =
      (on_tick_body hostSqrt conn s now).actions := rfl
  have hst : (on_tick hostSqrt conn s now).state =
      (on_tick_body hostSqrt conn s now).state := rfl
  rcases on_tick_body_actions_spec hostSqrt conn s now with h | ⟨mid, bs, as, heq, hguard, hlast⟩
  · rw [hact, h] at ha
    simp at ha
  · exact ⟨not_lt.mp hguard, by rw [hst, hlast]⟩

theorem refresh_spawn_timing_gate_witness :
    order_refresh_time ≤ (150 : ℚ) - loop0.strat.lastRefresh ∧
    (on_tick zeroSqrt goodConn loop0.strat 150).state.lastRefresh = 150 :=
  refresh_spawn_timing_gate zeroSqrt goodConn loop0.strat 150
    (MMAction.spawnRefresh 150 100 (5/10000) (5/10000))
    (by norm_num [loop0, goodConn, zeroSqrt, on_tick, on_tick_body,
      order_refresh_time, calc_inventory_skew_conn, calc_inventory_skew,
      check_balance_conn, order_amount, calc_volatility, bb_length,
      calc_trend, slow_ma, fast_ma, mean, lastN, bb_std, calc_bid_spread,
      calc_ask_spread, base_spread, min_spread, max_spread, target_base_pct,
      max_skew, quantize4, rhe, max_def, min_def])

end CustomMM
